import Mathlib

/-!
Verification of the TLS certificate-resolution subsystem of this repository
(`src/tls/tls.go`): the `FilesOrContents` flag-value type and the
`SortTLSPerEntryPoints` resolver.

Modelling conventions:
* Go strings are modelled as `List Char` (`Str`); Go's byte-level operations
  are modelled character-wise (all delimiters and headers involved are ASCII).
* Go maps are modelled as association lists with an overwriting `insertM`;
  `lookupM` is Go map indexing.
* Go's reference semantics for maps and for `*Configuration` records is made
  explicit: functions return the final state of every mutable value they may
  write through, alongside their Go return value.
-/

namespace Tls

/-- Go strings, modelled as lists of characters. -/
abbrev Str := List Char

/-- Go map indexing: the first binding for the key, if any. -/
def lookupM {V : Type} : List (Str × V) → Str → Option V
  | [], _ => none
  | (k, v) :: rest, key => if k = key then some v else lookupM rest key

/-- Go map assignment: overwrite the binding for the key, or append a new one. -/
def insertM {V : Type} : List (Str × V) → Str → V → List (Str × V)
  | [], key, val => [(key, val)]
  | (k, v) :: rest, key, val =>
    if k = key then (key, val) :: rest else (k, v) :: insertM rest key val

/-- Go `strings.Split(value, ",")`: split on every comma; always yields at
least one piece (`strings.Split("", ",") = [""]`). -/
def splitComma : Str → List Str
  | [] => [[]]
  | c :: cs =>
    if c = ',' then [] :: splitComma cs
    else
      match splitComma cs with
      | [] => [[c]]
      | s :: ss => (c :: s) :: ss

/-- Go `strings.Join(pieces, ",")`. -/
def joinComma : List Str → Str
  | [] => []
  | [s] => s
  | s :: t :: rest => s ++ ',' :: joinComma (t :: rest)

/-- `FilesOrContents.String` (src/tls/tls.go lines 44-50): each element's
`FileOrContent.String()` is the raw stored value, and the slice is joined
with commas. -/
def FilesOrContents.String (r : List Str) : Str := joinComma r

/-- `FilesOrContents.Set` (src/tls/tls.go lines 55-64): split the value on
commas; if that yields zero pieces report a format error; otherwise append
every piece to the receiver in order. -/
def FilesOrContents.Set (r : List Str) (value : Str) : Except Str (List Str) :=
  let filesOrContents := splitComma value
  if filesOrContents.length = 0 then
    .error ("bad FilesOrContents format: ".toList ++ value)
  else
    .ok (r ++ filesOrContents)

/-- Result of resolving and parsing a certificate/key pair. -/
inductive ParseOutcome where
  | ok (serverNames : List Str)
  | err (e : Str)
deriving DecidableEq

/-- A TLS certificate/key pair (`Certificate` of this repository; its
definition is not under src/, only its use). `CertFile` and `KeyFile` are
`FileOrContent` raw values. Modelled from the spec: per §3/§4.3, parsing of
the pair happens once during resolution and either fails or yields the set of
server names the certificate answers for; the outcome is a function of the
pair's content, carried here as the `parsed` field, abstracting file reading
and X.509 parsing. -/
structure Certificate where
  CertFile : Str
  KeyFile : Str
  parsed : ParseOutcome
deriving DecidableEq

/-- `Configuration` (src/tls/tls.go lines 36-40): a certificate plus the
entry points it is mapped to. Go's nil slice and empty slice behave
identically in `SortTLSPerEntryPoints` (`conf.EntryPoints == nil ||
len(conf.EntryPoints) == 0`, and `append` treats them alike), so both are
modelled as `[]`. -/
structure Configuration where
  EntryPoints : List Str
  Certificate : Tls.Certificate
deriving DecidableEq

/-- One entry point's certificate map: server name to parsed certificate
(`map[string]*tls.Certificate`). The parsed runtime certificate is
represented by the `Certificate` value it was parsed from. -/
abbrev DomainMap := List (Str × Certificate)

/-- The store built by the resolver: entry-point name to `DomainMap`
(`map[string]map[string]*tls.Certificate`). -/
abbrev Store := List (Str × DomainMap)

/-- Store lookup through both levels. -/
def lookup2 (store : Store) (ep name : Str) : Option Certificate :=
  match lookupM store ep with
  | none => none
  | some m => lookupM m name

/-- Modelled from the spec: `Certificate.AppendCertificates` is called by
`SortTLSPerEntryPoints` but its body is not under src/. Per §4.3: resolve and
parse the certificate/key pair, failing with the parse error it reports; on
success insert the parsed certificate into `store[entryPointName][name]` for
each server name it is valid for, creating `store[entryPointName]` first if
absent; insertion silently overwrites (last-write-wins). On failure the store
is not touched. -/
def Certificate.AppendCertificates (c : Certificate) (store : Store) (ep : Str) :
    Except Str Store :=
  match c.parsed with
  | .err e => .error e
  | .ok names =>
    let m := (lookupM store ep).getD []
    .ok (insertM store ep (names.foldl (fun acc d => insertM acc d c) m))

/-- The inner loop of `SortTLSPerEntryPoints` (src/tls/tls.go lines 98-102):
call `AppendCertificates` for each entry point in order; on the first error
stop and return it, leaving the store as the last successful call left it. -/
def appendAll (c : Certificate) : Store → List Str → Store × Option Str
  | store, [] => (store, none)
  | store, ep :: rest =>
    match c.AppendCertificates store ep with
    | .error e => (store, some e)
    | .ok store2 => appendAll c store2 rest

/-- The in-place defaulting of one configuration's entry-point list
(src/tls/tls.go lines 87-97): when the list is nil or empty, it becomes
`conf.EntryPoints ++ defaults` (Go: `conf.EntryPoints =
append(conf.EntryPoints, defaultEntryPoints...)`). -/
def defaultize (deps : List Str) (conf : Configuration) : Configuration :=
  if conf.EntryPoints = [] then
    { conf with EntryPoints := conf.EntryPoints ++ deps }
  else conf

/-- The loop of `SortTLSPerEntryPoints` (src/tls/tls.go lines 86-103) over the
configurations. Returns the final contents of the (mutable, pointed-to)
`Configuration` records, the final store, and the returned error. A
configuration with an empty entry-point list is mutated in place by
`defaultize` before its certificate is appended; on an error the loop stops,
so later configurations are neither defaulted nor appended. -/
def sortLoop (deps : List Str) :
    List Configuration → Store → List Configuration × Store × Option Str
  | [], store => ([], store, none)
  | conf :: rest, store =>
    let conf2 := defaultize deps conf
    let p := appendAll conf2.Certificate store conf2.EntryPoints
    match p.2 with
    | some e => (conf2 :: rest, p.1, some e)
    | none =>
      let q := sortLoop deps rest p.1
      (conf2 :: q.1, q.2.1, q.2.2)

/-- `SortTLSPerEntryPoints` (src/tls/tls.go lines 82-105), with Go's reference
semantics made explicit. The Go function returns only `error`; its other
observable effects are mutation of the `*Configuration` records and of the
caller's map. The triple returned here is (final configuration records,
the caller's map after the call, the returned error). When the caller passes
a nil map (`none`), the function allocates a fresh empty map and works on it,
but that map is a local of the callee: the caller's nil map is unchanged, so
the second component stays `none`. -/
def SortTLSPerEntryPoints (configurations : List Configuration)
    (epConfiguration : Option Store) (defaultEntryPoints : List Str) :
    List Configuration × Option Store × Option Str :=
  let store0 := match epConfiguration with
    | none => ([] : Store)
    | some s => s
  let r := sortLoop defaultEntryPoints configurations store0
  (r.1, match epConfiguration with
        | none => none
        | some _ => some r.2.1, r.2.2)

/-- `certificateHeader` (src/tls/tls.go line 13). -/
def certificateHeader : Str := "-----BEGIN CERTIFICATE-----\n".toList

/-- Go `strings.HasPrefix`. -/
def strHasPre : Str → Str → Bool
  | [], _ => true
  | _ :: _, [] => false
  | p :: ps, c :: cs => if p = c then strHasPre ps cs else false

/-- Modelled from the spec: `FileOrContent.IsPath` is not under src/. Per
§3/§4.1, a value is a path exactly when it does not begin with the PEM
certificate header. -/
def FileOrContent.IsPath (f : Str) : Bool := ! strHasPre certificateHeader f

/-- The certificate name shown in the defaulting diagnostic of
`SortTLSPerEntryPoints` (src/tls/tls.go lines 88-95): the raw `CertFile`
value, except that a non-path value that starts with the PEM header and is
longer than the header plus 50 characters is replaced by the first 50
characters after the header (`strings.TrimPrefix(...)[:50]`; Go's byte
slicing is modelled character-wise, the header being ASCII). -/
def diagCertName (certFile : Str) : Str :=
  if (! FileOrContent.IsPath certFile) && strHasPre certificateHeader certFile
      && decide (certificateHeader.length + 50 < certFile.length) then
    (certFile.drop certificateHeader.length).take 50
  else
    certFile

/-! Concrete fixtures used by the closed witness and counterexample
theorems. -/

/-- A certificate whose pair parses, answering for `example.com`. -/
def certA : Certificate :=
  { CertFile := "certA.pem".toList, KeyFile := "keyA.pem".toList,
    parsed := .ok ["example.com".toList] }

/-- A second parsing certificate answering for `example.com`. -/
def certB : Certificate :=
  { CertFile := "certB.pem".toList, KeyFile := "keyB.pem".toList,
    parsed := .ok ["example.com".toList] }

/-- The parse error reported for `certBad`. -/
def badErr : Str :=
  "tls: failed to find any PEM data in certificate input".toList

/-- A certificate whose pair fails to parse. -/
def certBad : Certificate :=
  { CertFile := "garbage".toList, KeyFile := "keyBad.pem".toList,
    parsed := .err badErr }

/-- An inline PEM value of 60 characters after the header. -/
def longPem : Str := certificateHeader ++ List.replicate 60 'x'

end Tls

/-! ## General lemmas about the embedded operations -/

namespace Tls

theorem lookupM_insertM {V : Type} (m : List (Str × V)) (k key : Str) (v : V) :
    lookupM (insertM m k v) key = if k = key then some v else lookupM m key := by
  induction m with
  | nil =>
    by_cases h : k = key <;> simp [insertM, lookupM, h]
  | cons p rest ih =>
    obtain ⟨k', v'⟩ := p
    by_cases h1 : k' = k
    · subst h1
      by_cases h2 : k' = key <;> simp [insertM, lookupM, h2]
    · by_cases h2 : k = key
      · subst h2
        simp [insertM, lookupM, h1, ih, Ne.symm h1]
      · simp only [insertM, if_neg h1, lookupM]
        by_cases h3 : k' = key <;> simp [h3, ih, h2]

theorem splitComma_ne_nil (l : Str) : splitComma l ≠ [] := by
  cases l with
  | nil => simp [splitComma]
  | cons c cs =>
    simp only [splitComma]
    split
    · simp
    · split <;> simp

theorem joinComma_splitComma (l : Str) : joinComma (splitComma l) = l := by
  induction l with
  | nil => simp [splitComma, joinComma]
  | cons c cs ih =>
    by_cases hc : c = ','
    · subst hc
      rcases hs : splitComma cs with _ | ⟨s, ss⟩
      · exact absurd hs (splitComma_ne_nil cs)
      · rw [hs] at ih
        simp [splitComma, hs, joinComma, ih]
    · rcases hs : splitComma cs with _ | ⟨s, ss⟩
      · exact absurd hs (splitComma_ne_nil cs)
      · rw [hs] at ih
        cases ss with
        | nil => simp [splitComma, hs, joinComma] at ih ⊢; simp [joinComma, hc, ih]
        | cons t ts => simp [splitComma, hs, joinComma, hc] at ih ⊢; simp [ih]

theorem FilesOrContents.Set_eq_ok (r : List Str) (value : Str) :
    FilesOrContents.Set r value = .ok (r ++ splitComma value) := by
  have h : (splitComma value).length ≠ 0 := by
    intro h
    exact splitComma_ne_nil value (List.length_eq_zero.mp h)
  simp [FilesOrContents.Set, h]

theorem defaultize_Certificate (deps : List Str) (conf : Configuration) :
    (defaultize deps conf).Certificate = conf.Certificate := by
  unfold defaultize
  split <;> rfl

theorem lookupM_foldl_insertM (c : Certificate) (names : List Str)
    (m : DomainMap) (k : Str) :
    lookupM (names.foldl (fun acc d => insertM acc d c) m) k =
      if k ∈ names then some c else lookupM m k := by
  induction names generalizing m with
  | nil => simp
  | cons d ds ih =>
    simp only [List.foldl_cons, ih, lookupM_insertM, List.mem_cons]
    by_cases h1 : k ∈ ds
    · simp [h1]
    · by_cases h2 : d = k
      · simp [h1, h2]
      · simp [h1, h2, Ne.symm h2]

theorem lookup2_insert_fold (c : Certificate) (names : List Str)
    (store : Store) (e ep k : Str) :
    lookup2 (insertM store e (names.foldl (fun acc d => insertM acc d c)
        ((lookupM store e).getD []))) ep k =
      if e = ep ∧ k ∈ names then some c else lookup2 store ep k := by
  by_cases he : e = ep
  · subst he
    cases hm : lookupM store e with
    | none => simp [lookup2, lookupM_insertM, lookupM_foldl_insertM, hm, lookupM]
    | some mm => simp [lookup2, lookupM_insertM, lookupM_foldl_insertM, hm]
  · simp [lookup2, lookupM_insertM, he]

theorem appendAll_ok_snd (c : Certificate) (names : List Str)
    (hc : c.parsed = .ok names) (eps : List Str) (store : Store) :
    (appendAll c store eps).2 = none := by
  induction eps generalizing store with
  | nil => simp [appendAll]
  | cons e es ih => simp [appendAll, Certificate.AppendCertificates, hc, ih]

theorem appendAll_ok_lookup2 (c : Certificate) (names : List Str)
    (hc : c.parsed = .ok names) (eps : List Str) (store : Store) (ep k : Str) :
    lookup2 (appendAll c store eps).1 ep k =
      if ep ∈ eps ∧ k ∈ names then some c else lookup2 store ep k := by
  induction eps generalizing store with
  | nil => simp [appendAll]
  | cons e es ih =>
    simp only [appendAll, Certificate.AppendCertificates, hc]
    rw [ih, lookup2_insert_fold]
    by_cases hk : k ∈ names
    · by_cases hes : ep ∈ es
      · simp [hk, hes]
      · by_cases he : e = ep
        · simp [hk, hes, he]
        · simp [hk, hes, he, Ne.symm he]
    · simp [hk]

theorem appendAll_ok_fst_not_mem (c : Certificate) (names : List Str)
    (hc : c.parsed = .ok names) (eps : List Str) (store : Store) (ep : Str)
    (hep : ep ∉ eps) :
    lookupM (appendAll c store eps).1 ep = lookupM store ep := by
  induction eps generalizing store with
  | nil => simp [appendAll]
  | cons e es ih =>
    simp only [List.mem_cons, not_or] at hep
    simp only [appendAll, Certificate.AppendCertificates, hc]
    rw [ih _ hep.2, lookupM_insertM, if_neg (Ne.symm hep.1)]

theorem appendAll_err (c : Certificate) (e : Str) (hc : c.parsed = .err e)
    (store : Store) (eps : List Str) (hne : eps ≠ []) :
    appendAll c store eps = (store, some e) := by
  cases eps with
  | nil => exact absurd rfl hne
  | cons ep rest => simp [appendAll, Certificate.AppendCertificates, hc]

theorem sortLoop_ok (deps : List Str) (confs : List Configuration)
    (h : ∀ conf ∈ confs, ∃ ns, conf.Certificate.parsed = .ok ns)
    (store : Store) :
    (sortLoop deps confs store).2.2 = none ∧
      (sortLoop deps confs store).1 = confs.map (defaultize deps) := by
  induction confs generalizing store with
  | nil => simp [sortLoop]
  | cons conf rest ih =>
    obtain ⟨ns, hns⟩ := h conf (List.mem_cons_self conf rest)
    have hns2 : (defaultize deps conf).Certificate.parsed = .ok ns := by
      rw [defaultize_Certificate]; exact hns
    have hsnd := appendAll_ok_snd (defaultize deps conf).Certificate ns hns2
      (defaultize deps conf).EntryPoints store
    have ihr := ih (fun c2 hc2 => h c2 (List.mem_cons_of_mem conf hc2))
      (appendAll (defaultize deps conf).Certificate store
        (defaultize deps conf).EntryPoints).1
    simp only [sortLoop]
    rw [hsnd]
    simp [ihr.1, ihr.2]

theorem sortLoop_fail (deps : List Str) (cs1 : List Configuration)
    (confF : Configuration) (cs2 : List Configuration) (e : Str)
    (h1 : ∀ conf ∈ cs1, ∃ ns, conf.Certificate.parsed = .ok ns)
    (h2 : confF.Certificate.parsed = .err e)
    (h3 : (defaultize deps confF).EntryPoints ≠ []) (store0 : Store) :
    sortLoop deps (cs1 ++ confF :: cs2) store0 =
      (cs1.map (defaultize deps) ++ defaultize deps confF :: cs2,
       (sortLoop deps cs1 store0).2.1, some e) := by
  induction cs1 generalizing store0 with
  | nil =>
    have h2d : (defaultize deps confF).Certificate.parsed = .err e := by
      rw [defaultize_Certificate]; exact h2
    have happ := appendAll_err (defaultize deps confF).Certificate e h2d store0
      (defaultize deps confF).EntryPoints h3
    simp only [List.nil_append, List.map_nil, sortLoop]
    rw [happ]

  | cons c cs ih =>
    obtain ⟨ns, hns⟩ := h1 c (List.mem_cons_self c cs)
    have hns2 : (defaultize deps c).Certificate.parsed = .ok ns := by
      rw [defaultize_Certificate]; exact hns
    have hsnd := appendAll_ok_snd (defaultize deps c).Certificate ns hns2
      (defaultize deps c).EntryPoints store0
    have ihr := ih (fun c2 hc2 => h1 c2 (List.mem_cons_of_mem c hc2))
      (appendAll (defaultize deps c).Certificate store0
        (defaultize deps c).EntryPoints).1
    simp only [List.cons_append, sortLoop]
    rw [hsnd]
    simp [ihr]

end Tls

/-! ## The claims -/

namespace Tls

/-- C1: an assignment whose entry-point list is empty (or nil) has the full
default entry-point list substituted: resolving it alone into a freshly
supplied empty store succeeds, and the resulting store contains its
certificate under every name in the default entry-point list (keyed by each
of the certificate's server names) and under no other entry-point name. -/
theorem C1_empty_list_fans_out_to_defaults (c : Certificate) (names : List Str)
    (hc : c.parsed = .ok names) (deps : List Str) :
    (SortTLSPerEntryPoints [{ EntryPoints := [], Certificate := c }]
        (some []) deps).2.2 = none ∧
    (∀ ep ∈ deps, ∀ k ∈ names,
      lookup2 (((SortTLSPerEntryPoints [{ EntryPoints := [], Certificate := c }]
        (some []) deps).2.1).getD []) ep k = some c) ∧
    (∀ ep, ep ∉ deps →
      lookupM (((SortTLSPerEntryPoints [{ EntryPoints := [], Certificate := c }]
        (some []) deps).2.1).getD []) ep = none) := by
  have hsnd := appendAll_ok_snd c names hc deps ([] : Store)
  have keyS : SortTLSPerEntryPoints [{ EntryPoints := [], Certificate := c }]
      (some []) deps
      = ([{ EntryPoints := deps, Certificate := c }],
         some (appendAll c ([] : Store) deps).1, none) := by
    simp [SortTLSPerEntryPoints, sortLoop, defaultize, hsnd]
  refine ⟨by rw [keyS], ?_, ?_⟩
  · intro ep hep k hk
    rw [keyS]
    simp only [Option.getD_some]
    rw [appendAll_ok_lookup2 c names hc deps ([] : Store) ep k]
    simp [hep, hk]
  · intro ep hep
    rw [keyS]
    simp only [Option.getD_some]
    rw [appendAll_ok_fst_not_mem c names hc deps ([] : Store) ep hep]
    simp [lookupM]

/-- C4: an assignment with an explicit non-empty entry-point list inserts its
certificate only under the named entry points: resolution succeeds, the
certificate is found under each named entry point for each of its server
names, and every other entry point's map is exactly what the initial store
held there (in particular, absent if it was absent). -/
theorem C4_explicit_list_only_named_entrypoints (c : Certificate)
    (names : List Str) (hc : c.parsed = .ok names) (eps : List Str)
    (hne : eps ≠ []) (store0 : Store) (deps : List Str) :
    (SortTLSPerEntryPoints [{ EntryPoints := eps, Certificate := c }]
        (some store0) deps).2.2 = none ∧
    (∀ ep ∈ eps, ∀ k ∈ names,
      lookup2 (((SortTLSPerEntryPoints [{ EntryPoints := eps, Certificate := c }]
        (some store0) deps).2.1).getD []) ep k = some c) ∧
    (∀ ep, ep ∉ eps →
      lookupM (((SortTLSPerEntryPoints [{ EntryPoints := eps, Certificate := c }]
        (some store0) deps).2.1).getD []) ep = lookupM store0 ep) := by
  have hsnd := appendAll_ok_snd c names hc eps store0
  have keyS : SortTLSPerEntryPoints [{ EntryPoints := eps, Certificate := c }]
      (some store0) deps
      = ([{ EntryPoints := eps, Certificate := c }],
         some (appendAll c store0 eps).1, none) := by
    simp [SortTLSPerEntryPoints, sortLoop, defaultize, hne, hsnd]
  refine ⟨by rw [keyS], ?_, ?_⟩
  · intro ep hep k hk
    rw [keyS]
    simp only [Option.getD_some]
    rw [appendAll_ok_lookup2 c names hc eps store0 ep k]
    simp [hep, hk]
  · intro ep hep
    rw [keyS]
    simp only [Option.getD_some]
    rw [appendAll_ok_fst_not_mem c names hc eps store0 ep hep]

/-- C3: two assignments targeting the same entry point whose certificates
share a server name: after the first assignment alone the store holds the
first certificate under that (entry point, server name) pair; after the full
run — a pure function of the input order, hence deterministic — resolution
succeeds and the store holds the later-processed certificate, which silently
replaced the earlier one. -/
theorem C3_later_assignment_wins (cA cB : Certificate) (nsA nsB : List Str)
    (hA : cA.parsed = .ok nsA) (hB : cB.parsed = .ok nsB)
    (epsA epsB : List Str) (e n : Str)
    (heA : e ∈ epsA) (heB : e ∈ epsB) (hnA : n ∈ nsA) (hnB : n ∈ nsB)
    (store0 : Store) (deps : List Str) :
    lookup2 (sortLoop deps [{ EntryPoints := epsA, Certificate := cA }]
        store0).2.1 e n = some cA ∧
    (SortTLSPerEntryPoints
        [{ EntryPoints := epsA, Certificate := cA },
         { EntryPoints := epsB, Certificate := cB }]
        (some store0) deps).2.2 = none ∧
    lookup2 (((SortTLSPerEntryPoints
        [{ EntryPoints := epsA, Certificate := cA },
         { EntryPoints := epsB, Certificate := cB }]
        (some store0) deps).2.1).getD []) e n = some cB := by
  have hneA : epsA ≠ [] := List.ne_nil_of_mem heA
  have hneB : epsB ≠ [] := List.ne_nil_of_mem heB
  have hsndA := appendAll_ok_snd cA nsA hA epsA store0
  have hsndB := appendAll_ok_snd cB nsB hB epsB (appendAll cA store0 epsA).1
  have k0 : sortLoop deps [{ EntryPoints := epsA, Certificate := cA }] store0
      = ([{ EntryPoints := epsA, Certificate := cA }],
         (appendAll cA store0 epsA).1, none) := by
    simp [sortLoop, defaultize, hneA, hsndA]
  have keyS : SortTLSPerEntryPoints
      [{ EntryPoints := epsA, Certificate := cA },
       { EntryPoints := epsB, Certificate := cB }] (some store0) deps
      = ([{ EntryPoints := epsA, Certificate := cA },
          { EntryPoints := epsB, Certificate := cB }],
         some (appendAll cB (appendAll cA store0 epsA).1 epsB).1, none) := by
    simp [SortTLSPerEntryPoints, sortLoop, defaultize, hneA, hneB, hsndA, hsndB]
  refine ⟨?_, by rw [keyS], ?_⟩
  · rw [k0]
    rw [appendAll_ok_lookup2 cA nsA hA epsA store0 e n]
    simp [heA, hnA]
  · rw [keyS]
    simp only [Option.getD_some]
    rw [appendAll_ok_lookup2 cB nsB hB epsB (appendAll cA store0 epsA).1 e n]
    simp [heB, hnB]

/-- C2: if an assignment's certificate fails to parse (while the effective
entry-point list is non-empty, so `AppendCertificates` is actually called),
`SortTLSPerEntryPoints` aborts at once and returns that error unchanged, and
the caller's store is exactly the store left by the earlier, successfully
processed assignments: no rollback, and nothing from the failing or later
assignments is added. -/
theorem C2_error_aborts_without_rollback (cs1 cs2 : List Configuration)
    (confF : Configuration) (e : Str) (store0 : Store) (deps : List Str)
    (h1 : ∀ conf ∈ cs1, ∃ ns, conf.Certificate.parsed = .ok ns)
    (h2 : confF.Certificate.parsed = .err e)
    (h3 : confF.EntryPoints ≠ [] ∨ deps ≠ []) :
    (SortTLSPerEntryPoints (cs1 ++ confF :: cs2) (some store0) deps).2.2
      = some e ∧
    (SortTLSPerEntryPoints (cs1 ++ confF :: cs2) (some store0) deps).2.1
      = some (sortLoop deps cs1 store0).2.1 := by
  have h3d : (defaultize deps confF).EntryPoints ≠ [] := by
    by_cases hF : confF.EntryPoints = []
    · rcases h3 with h | h
      · exact absurd hF h
      · simp [defaultize, hF, h]
    · simp [defaultize, hF]
  have key := sortLoop_fail deps cs1 confF cs2 e h1 h2 h3d store0
  constructor <;> simp [SortTLSPerEntryPoints, key]

/-- C5 (amended): when no store is supplied (nil map), `SortTLSPerEntryPoints`
creates a fresh empty store and runs on it — the configuration records are
processed exactly as they would be against a fresh store, and with all
certificates parsing no error is returned — but that fresh store is a local
of the callee and only the error is returned, so the caller's nil store stays
nil: the populated store is not observable by the caller. -/
theorem C5_nil_store_fresh_but_unobservable (confs : List Configuration)
    (deps : List Str)
    (h : ∀ conf ∈ confs, ∃ ns, conf.Certificate.parsed = .ok ns) :
    (SortTLSPerEntryPoints confs none deps).1
      = (sortLoop deps confs ([] : Store)).1 ∧
    (SortTLSPerEntryPoints confs none deps).2.2
      = (sortLoop deps confs ([] : Store)).2.2 ∧
    (SortTLSPerEntryPoints confs none deps).2.2 = none ∧
    (SortTLSPerEntryPoints confs none deps).2.1 = none :=
  ⟨rfl, rfl, (sortLoop_ok deps confs h ([] : Store)).1, rfl⟩

/-- C5 counterexample: a nil store is supplied and the single assignment
resolves successfully (no error is returned), yet the caller's store is still
nil afterwards — the populated store is not produced for the caller. -/
theorem C5_cex_populated_store_lost :
    (SortTLSPerEntryPoints
        [{ EntryPoints := ["web".toList], Certificate := certA }]
        none ["web".toList]).2.2 = none ∧
    (SortTLSPerEntryPoints
        [{ EntryPoints := ["web".toList], Certificate := certA }]
        none ["web".toList]).2.1 = none := by
  constructor <;> rfl

/-- C6 (amended): `FilesOrContents.Set` never fails: splitting any string on
commas yields at least one piece, so the zero-pieces error branch is
unreachable; every call succeeds. -/
theorem C6_Set_never_fails (r : List Str) (value : Str) :
    ∃ l, FilesOrContents.Set r value = .ok l :=
  ⟨r ++ splitComma value, FilesOrContents.Set_eq_ok r value⟩

/-- C6 counterexample: `Set("")` on the empty list does not fail with a
format error; it succeeds, appending a single empty element. -/
theorem C6_cex_empty_string_succeeds :
    FilesOrContents.Set [] [] = .ok [[]] := rfl

/-- C7: `Set(s)` on an empty list followed by `String()` reproduces `s`, for
every string `s` (the pieces produced by splitting on commas never themselves
contain a comma, so the spec's side condition always holds); in particular
for "a.pem,b.pem". -/
theorem C7_Set_then_String_roundtrip :
    (∀ s : Str,
      (FilesOrContents.Set [] s).map FilesOrContents.String = .ok s) ∧
    (FilesOrContents.Set [] "a.pem,b.pem".toList).map FilesOrContents.String
      = .ok "a.pem,b.pem".toList := by
  have general : ∀ s : Str,
      (FilesOrContents.Set [] s).map FilesOrContents.String = .ok s := by
    intro s
    rw [FilesOrContents.Set_eq_ok]
    simp [Except.map, FilesOrContents.String, joinComma_splitComma]
  exact ⟨general, general _⟩

/-- C8: `Set` is additive, not replacing: a call keeps the prior elements in
order and appends the comma-separated pieces of the new value after them, so
repeated calls accumulate. -/
theorem C8_Set_is_additive (r : List Str) (v1 v2 : Str) :
    FilesOrContents.Set r v1 = .ok (r ++ splitComma v1) ∧
    FilesOrContents.Set (r ++ splitComma v1) v2
      = .ok (r ++ splitComma v1 ++ splitComma v2) :=
  ⟨FilesOrContents.Set_eq_ok r v1,
   FilesOrContents.Set_eq_ok (r ++ splitComma v1) v2⟩

/-- C9: the certificate name shown in the defaulting diagnostic: a path value
is shown unchanged; an inline (non-path) value is shown either whole — in
which case its content after the PEM header is at most 50 characters — or
truncated to exactly the first 50 characters after the header. -/
theorem C9_diagnostic_truncation (f : Str) :
    (FileOrContent.IsPath f = true → diagCertName f = f) ∧
    (FileOrContent.IsPath f = false →
      (diagCertName f = f ∧ (f.drop certificateHeader.length).length ≤ 50) ∨
      diagCertName f = (f.drop certificateHeader.length).take 50) := by
  constructor
  · intro hp
    simp [diagCertName, hp]
  · intro hp
    have hpre : strHasPre certificateHeader f = true := by
      simpa [FileOrContent.IsPath] using hp
    by_cases hlen : certificateHeader.length + 50 < f.length
    · right
      simp [diagCertName, hp, hpre, hlen]
    · left
      refine ⟨by simp [diagCertName, hp, hpre, hlen], ?_⟩
      rw [List.length_drop]
      omega

/-- C10 (amended): on a run in which every certificate parses (so the loop
reaches every assignment), the resolver mutates its input records exactly so:
an assignment whose entry-point list was empty (or nil) ends with the default
entry-point list appended to it — hence equal to the default list — and an
assignment with a non-empty list is left unchanged. (When an error aborts the
run early, assignments not yet reached are left unmodified instead.) -/
theorem C10_mutates_entrypoints_on_success (confs : List Configuration)
    (deps : List Str) (store0 : Store)
    (h : ∀ conf ∈ confs, ∃ ns, conf.Certificate.parsed = .ok ns) :
    (SortTLSPerEntryPoints confs (some store0) deps).1
      = confs.map (defaultize deps) :=
  (sortLoop_ok deps confs h store0).2

/-- C10 counterexample: the first assignment's certificate fails to parse, so
resolution aborts there; the second assignment, whose entry-point list is
empty on entry, still has an empty — not the default — entry-point list after
the call. -/
theorem C10_cex_unreached_assignment_not_mutated :
    ((SortTLSPerEntryPoints
        [{ EntryPoints := ["web".toList], Certificate := certBad },
         { EntryPoints := [], Certificate := certA }]
        (some []) ["web".toList]).1)[1]?.map Configuration.EntryPoints
      = some ([] : List Str) ∧
    ¬ ((SortTLSPerEntryPoints
        [{ EntryPoints := ["web".toList], Certificate := certBad },
         { EntryPoints := [], Certificate := certA }]
        (some []) ["web".toList]).1)[1]?.map Configuration.EntryPoints
      = some ["web".toList] := by
  constructor <;> decide

/-- Every configuration in the empty list has a parsing certificate. -/
theorem allOk_nil :
    ∀ c2 ∈ ([] : List Configuration), ∃ ns2, c2.Certificate.parsed = .ok ns2 := by
  intro c2 hc2
  exact absurd hc2 (List.not_mem_nil c2)

/-- Extend an all-certificates-parse fact by one parsing configuration. -/
theorem allOk_cons {conf : Configuration} {rest : List Configuration}
    (ns : List Str) (hc : conf.Certificate.parsed = .ok ns)
    (hrest : ∀ c2 ∈ rest, ∃ ns2, c2.Certificate.parsed = .ok ns2) :
    ∀ c2 ∈ conf :: rest, ∃ ns2, c2.Certificate.parsed = .ok ns2 := by
  intro c2 hc2
  rcases List.mem_cons.mp hc2 with h | h
  · subst h; exact ⟨ns, hc⟩
  · exact hrest c2 h

/-- C1 witness: `certA` (server name example.com) with an empty entry-point
list, defaults web and websecure: no error, the certificate is stored under
both defaults, and an unrelated entry point has no entry. -/
theorem C1_witness :
    certA.parsed = .ok ["example.com".toList] ∧
    (SortTLSPerEntryPoints [{ EntryPoints := [], Certificate := certA }]
        (some []) ["web".toList, "websecure".toList]).2.2 = none ∧
    lookup2 (((SortTLSPerEntryPoints
        [{ EntryPoints := [], Certificate := certA }]
        (some []) ["web".toList, "websecure".toList]).2.1).getD [])
      "web".toList "example.com".toList = some certA ∧
    lookup2 (((SortTLSPerEntryPoints
        [{ EntryPoints := [], Certificate := certA }]
        (some []) ["web".toList, "websecure".toList]).2.1).getD [])
      "websecure".toList "example.com".toList = some certA ∧
    lookupM (((SortTLSPerEntryPoints
        [{ EntryPoints := [], Certificate := certA }]
        (some []) ["web".toList, "websecure".toList]).2.1).getD [])
      "other".toList = none := by
  have h := C1_empty_list_fans_out_to_defaults certA ["example.com".toList]
    rfl ["web".toList, "websecure".toList]
  exact ⟨rfl, h.1,
    h.2.1 _ (by decide) _ (by decide),
    h.2.1 _ (by decide) _ (by decide),
    h.2.2 _ (by decide)⟩

/-- C2 witness: the middle of three assignments fails to parse; the returned
error is exactly the parse error and the caller's store is exactly the store
left by the first assignment alone. -/
theorem C2_witness :
    (SortTLSPerEntryPoints
        [{ EntryPoints := ["web".toList], Certificate := certA },
         { EntryPoints := ["web".toList], Certificate := certBad },
         { EntryPoints := ["web".toList], Certificate := certB }]
        (some []) ["websecure".toList]).2.2 = some badErr ∧
    (SortTLSPerEntryPoints
        [{ EntryPoints := ["web".toList], Certificate := certA },
         { EntryPoints := ["web".toList], Certificate := certBad },
         { EntryPoints := ["web".toList], Certificate := certB }]
        (some []) ["websecure".toList]).2.1
      = some (sortLoop ["websecure".toList]
          [{ EntryPoints := ["web".toList], Certificate := certA }] []).2.1 :=
  C2_error_aborts_without_rollback
    [{ EntryPoints := ["web".toList], Certificate := certA }]
    [{ EntryPoints := ["web".toList], Certificate := certB }]
    { EntryPoints := ["web".toList], Certificate := certBad }
    badErr [] ["websecure".toList]
    (allOk_cons ["example.com".toList] rfl allOk_nil)
    rfl (Or.inl (by decide))

/-- C3 witness: `certA` then `certB`, both for entry point web and server
name example.com: after the first assignment the store holds `certA`; the
full run succeeds and the store holds `certB`. -/
theorem C3_witness :
    lookup2 (sortLoop [] [{ EntryPoints := ["web".toList], Certificate := certA }]
        []).2.1 "web".toList "example.com".toList = some certA ∧
    (SortTLSPerEntryPoints
        [{ EntryPoints := ["web".toList], Certificate := certA },
         { EntryPoints := ["web".toList], Certificate := certB }]
        (some []) []).2.2 = none ∧
    lookup2 (((SortTLSPerEntryPoints
        [{ EntryPoints := ["web".toList], Certificate := certA },
         { EntryPoints := ["web".toList], Certificate := certB }]
        (some []) []).2.1).getD []) "web".toList "example.com".toList
      = some certB :=
  C3_later_assignment_wins certA certB
    ["example.com".toList] ["example.com".toList] rfl rfl
    ["web".toList] ["web".toList] "web".toList "example.com".toList
    (by decide) (by decide) (by decide) (by decide) [] []

/-- C4 witness: the spec scenario — one assignment naming only websecure,
defaults web and websecure: the store gains the certificate under websecure
for its server name, and nothing under web. -/
theorem C4_witness :
    (SortTLSPerEntryPoints
        [{ EntryPoints := ["websecure".toList], Certificate := certA }]
        (some []) ["web".toList, "websecure".toList]).2.2 = none ∧
    lookup2 (((SortTLSPerEntryPoints
        [{ EntryPoints := ["websecure".toList], Certificate := certA }]
        (some []) ["web".toList, "websecure".toList]).2.1).getD [])
      "websecure".toList "example.com".toList = some certA ∧
    lookupM (((SortTLSPerEntryPoints
        [{ EntryPoints := ["websecure".toList], Certificate := certA }]
        (some []) ["web".toList, "websecure".toList]).2.1).getD [])
      "web".toList = none := by
  have h := C4_explicit_list_only_named_entrypoints certA
    ["example.com".toList] rfl ["websecure".toList] (by decide)
    [] ["web".toList, "websecure".toList]
  exact ⟨h.1, h.2.1 _ (by decide) _ (by decide),
    (h.2.2 _ (by decide)).trans rfl⟩

/-- C5 witness for the amended claim: one successfully parsing assignment,
nil store supplied — the record is processed against a fresh store, no error
is returned, and the caller's store stays nil. -/
theorem C5_witness :
    (SortTLSPerEntryPoints
        [{ EntryPoints := ["web".toList], Certificate := certA }]
        none ["web".toList]).1
      = (sortLoop ["web".toList]
          [{ EntryPoints := ["web".toList], Certificate := certA }]
          ([] : Store)).1 ∧
    (SortTLSPerEntryPoints
        [{ EntryPoints := ["web".toList], Certificate := certA }]
        none ["web".toList]).2.2
      = (sortLoop ["web".toList]
          [{ EntryPoints := ["web".toList], Certificate := certA }]
          ([] : Store)).2.2 ∧
    (SortTLSPerEntryPoints
        [{ EntryPoints := ["web".toList], Certificate := certA }]
        none ["web".toList]).2.2 = none ∧
    (SortTLSPerEntryPoints
        [{ EntryPoints := ["web".toList], Certificate := certA }]
        none ["web".toList]).2.1 = none :=
  C5_nil_store_fresh_but_unobservable
    [{ EntryPoints := ["web".toList], Certificate := certA }]
    ["web".toList]
    (allOk_cons ["example.com".toList] rfl allOk_nil)

/-- C9 witness: a concrete inline PEM value with 60 characters of content is
truncated to the 50 characters after the header. -/
theorem C9_witness :
    FileOrContent.IsPath longPem = false ∧
    ((diagCertName longPem = longPem ∧
        (longPem.drop certificateHeader.length).length ≤ 50) ∨
      diagCertName longPem
        = (longPem.drop certificateHeader.length).take 50) :=
  ⟨by decide, (C9_diagnostic_truncation longPem).2 (by decide)⟩

/-- C10 witness: an empty-list assignment followed by an explicit one, all
certificates parsing: after the run the first record carries the default
list, the second is unchanged. -/
theorem C10_witness :
    (SortTLSPerEntryPoints
        [{ EntryPoints := [], Certificate := certA },
         { EntryPoints := ["grpc".toList], Certificate := certB }]
        (some []) ["web".toList]).1
      = [{ EntryPoints := ["web".toList], Certificate := certA },
         { EntryPoints := ["grpc".toList], Certificate := certB }] :=
  (C10_mutates_entrypoints_on_success
    [{ EntryPoints := [], Certificate := certA },
     { EntryPoints := ["grpc".toList], Certificate := certB }]
    ["web".toList] []
    (allOk_cons ["example.com".toList] rfl
      (allOk_cons ["example.com".toList] rfl allOk_nil))).trans (by decide)

end Tls
